import Mathlib

/-!
Verification of the vector-rank decomposition solver (`dft/vrank-geq1.c`).

The C source is shallowly embedded: pointers become integer addresses (in
units of the real scalar type `R`), the planner's flag bit-set becomes a
structure of booleans, and the externally supplied collaborators
(`pickdim`, the recursive planner solve, `alignment_of`) become explicit
function parameters.  Helpers of the repository that are not part of the
shown source (`tensor_copy`, `tensor_copy_except`, `tensor_max_index`) are
modelled from the specification and marked as such.
-/

namespace VrankGeq1

/-- Dimension descriptor: `iodim` from the source — a length `n` (uint)
and signed input/output strides `is`, `os`. -/
structure iodim where
  n : Nat
  is : Int
  os : Int
  deriving Repr, DecidableEq

instance : Inhabited iodim := ⟨⟨0, 0, 0⟩⟩

/-- `RNK_MINFTY`: the sentinel rank marking an infinite-rank tensor
(`UINT_MAX` in the C source's headers). -/
def RNK_MINFTY : Nat := 4294967295

/-- Tensor: a rank field plus the list of dimension descriptors.  For a
finite-rank well-formed tensor, `rnk` equals `dims.length`; an
infinite-rank tensor carries the sentinel `RNK_MINFTY`. -/
structure tensor where
  rnk : Nat
  dims : List iodim
  deriving Repr, DecidableEq

/-- `FINITE_RNK(r)` from the source headers: the rank is not the
infinite-rank sentinel. -/
def FINITE_RNK (r : Nat) : Bool := r ≠ RNK_MINFTY

/-- A DFT problem: core shape `sz`, vector shape `vecsz`, and the four
buffer base addresses (input real/imaginary, output real/imaginary),
modelled as integers in units of `R`. -/
structure problem_dft where
  sz : tensor
  vecsz : tensor
  ri : Int
  ii : Int
  ro : Int
  io : Int
  deriving Repr, DecidableEq

/-- A planner problem: either a DFT problem (for which `DFTP` holds) or a
problem of any other kind. -/
inductive problem where
  | dft : problem_dft → problem
  | other : problem
  deriving Repr, DecidableEq

/-- `DFTP(p)`: the problem-kind check. -/
def DFTP : problem → Bool
  | problem.dft _ => true
  | problem.other => false

/-- The solver record `S`: preferred dimension, the shared candidate
list (`buddies`) and its length. -/
structure S where
  vecloop_dim : Int
  buddies : List Int
  nbuddies : Nat
  deriving Repr, DecidableEq

/-- Planner-wide flag bits, as a structure of booleans.  The C source
reads `IMPATIENT`, `FORCE_VRECURSE`, `CLASSIC_VRECURSE` and writes
`CLASSIC_VRECURSE`, `FORCE_VRECURSE`, `POSSIBLY_UNALIGNED`. -/
structure flagsT where
  impatient : Bool
  force_vrecurse : Bool
  classic_vrecurse : Bool
  possibly_unaligned : Bool
  deriving Repr, DecidableEq

/-- The three scoring tiers. -/
inductive tier where
  | BAD : tier
  | UGLY : tier
  | GOOD : tier
  deriving Repr, DecidableEq

/-- Type of the external dimension selector `X(pickdim)`: given the
solver's preferred dimension, the candidate list and its length, the
vector shape, and the out-of-place flag, it either selects a dimension
index or fails. -/
def PickDim : Type :=
  Int → List Int → Nat → tensor → Bool → Option Nat

/-- The solver's `pickdim` wrapper: forwards its fields to the external
selector. -/
def pickdim (pd : PickDim) (ego : S) (vecsz : tensor) (oop : Bool) : Option Nat :=
  pd ego.vecloop_dim ego.buddies ego.nbuddies vecsz oop

/-- `applicable`: succeeds (returning the selected dimension index `dp`)
iff the problem is a DFT problem, its vector shape has finite positive
rank, and the dimension selector succeeds; `oop` is `ri != ro`. -/
def applicable (pd : PickDim) (ego : S) (p : problem) : Option Nat :=
  match p with
  | problem.dft q =>
      if FINITE_RNK q.vecsz.rnk ∧ q.vecsz.rnk > 0 then
        pickdim pd ego q.vecsz (q.ri ≠ q.ro)
      else
        none
  | problem.other => none

/-- `X(imin)`: minimum of two signed integers. -/
def imin (a b : Int) : Int := if a < b then a else b

/-- Modelled from the spec: `X(tensor_max_index)` is not part of the
shown source; the spec describes it as "the maximum flat index spanned by
the core shape".  Modelled as the larger of the input-side and
output-side spans, each the sum over the dimensions of
`(length - 1) * |stride|`. -/
def tensor_max_index (sz : tensor) : Int :=
  max ((sz.dims.map (fun d => ((d.n : Int) - 1) * |d.is|)).sum)
      ((sz.dims.map (fun d => ((d.n : Int) - 1) * |d.os|)).sum)

/-- `score`, in state-passing form over the planner flags: the C function
takes a `const planner *` and performs no write, so the embedding returns
the flags it was given alongside the tier.  The rules, first match wins:
applicability failure → `BAD`; `IMPATIENT` with a non-primary preferred
dimension → `BAD`; `FORCE_VRECURSE` with vector rank 1 → `UGLY`;
multi-dimensional core with vector stride below the core's maximum flat
index → `UGLY`; rank-0 core with vector rank 1 → `UGLY`; else `GOOD`. -/
def score (pd : PickDim) (ego : S) (p : problem) (plnr : flagsT) : tier × flagsT :=
  match applicable pd ego p with
  | none => (tier.BAD, plnr)
  | some vdim =>
      if plnr.impatient ∧ ego.vecloop_dim ≠ ego.buddies.headI then
        (tier.BAD, plnr)
      else
        match p with
        | problem.other => (tier.BAD, plnr)
        | problem.dft q =>
            if plnr.force_vrecurse ∧ q.vecsz.rnk = 1 then
              (tier.UGLY, plnr)
            else
              let d := q.vecsz.dims.getD vdim default
              if q.sz.rnk > 1 ∧ imin d.is d.os < tensor_max_index q.sz then
                (tier.UGLY, plnr)
              else if q.sz.rnk = 0 ∧ q.vecsz.rnk = 1 then
                (tier.UGLY, plnr)
              else
                (tier.GOOD, plnr)

/-- Modelled from the spec: `X(tensor_copy)` (`duplicate`) is not part of
the shown source; the spec describes it as a structural copy producing a
new, independently owned tensor.  Under value semantics a structural copy
is the value itself. -/
def tensor_copy (t : tensor) : tensor :=
  { rnk := t.rnk, dims := t.dims }

/-- Modelled from the spec: `X(tensor_copy_except)` (`duplicate_excluding`)
is not part of the shown source; the spec describes it as the original
tensor minus the selected dimension, the order of the remaining dimensions
preserved, so the rank drops by one. -/
def tensor_copy_except (t : tensor) (k : Nat) : tensor :=
  { rnk := t.rnk - 1, dims := t.dims.eraseIdx k }

/-- The reduced sub-problem built by `mkplan` (via `X(mkproblem_dft_d)`):
core shape duplicated, vector shape duplicated minus dimension `vdim`,
the four buffer addresses unchanged. -/
def reduced_problem (q : problem_dft) (vdim : Nat) : problem_dft :=
  { sz := tensor_copy q.sz
    vecsz := tensor_copy_except q.vecsz vdim
    ri := q.ri, ii := q.ii, ro := q.ro, io := q.io }

/-- The loop plan `P` built by this solver (generic in the child plan type
`α`, which stands for the plans produced by the recursive planner solve):
child plan, iteration count `vl = d.n`, and the per-iteration input/output
strides `ivs = d.is`, `ovs = d.os`.  The cost bookkeeping fields
(`ops`, `pcost`), produced by external combinators, are not modelled. -/
structure P (α : Type) where
  cld : α
  vl : Nat
  ivs : Int
  ovs : Int
  deriving Repr, DecidableEq

/-- `mkplan`, in state-passing form over the planner flags.  The external
collaborators are parameters: `pd` the dimension selector, `alignment_of`
the pointer-alignment probe (zero means aligned), `solve` the planner's
recursive entry point (`MKPLAN` on the reduced sub-problem).  Returns the
optional plan together with the planner flags after the call. -/
def mkplan {α : Type} (pd : PickDim) (alignment_of : Int → Nat)
    (solve : problem → Option α) (ego : S) (p : problem) (plnr : flagsT) :
    Option (P α) × flagsT :=
  match applicable pd ego p with
  | none => (none, plnr)
  | some vdim =>
      match p with
      | problem.other => (none, plnr)
      | problem.dft q =>
          let plnr1 :=
            if q.vecsz.rnk = 1 ∧ plnr.classic_vrecurse then
              { plnr with classic_vrecurse := false, force_vrecurse := false }
            else plnr
          let d := q.vecsz.dims.getD vdim default
          let plnr2 :=
            if d.n > 0 ∧ (alignment_of (q.ri + d.is) ≠ 0 ∨
                          alignment_of (q.ii + d.is) ≠ 0 ∨
                          alignment_of (q.ro + d.os) ≠ 0 ∨
                          alignment_of (q.io + d.os) ≠ 0) then
              { plnr1 with possibly_unaligned := true }
            else plnr1
          match solve (problem.dft (reduced_problem q vdim)) with
          | none => (none, plnr2)
          | some cld => (some { cld := cld, vl := d.n, ivs := d.is, ovs := d.os }, plnr2)

/-- One invocation of the child plan's apply operation, as observed by its
four buffer base addresses. -/
structure dftcall where
  ri : Int
  ii : Int
  ro : Int
  io : Int
  deriving Repr, DecidableEq

instance : Inhabited dftcall := ⟨⟨0, 0, 0, 0⟩⟩

/-- The body of `apply`'s loop `for (i = 0; i < vl; ++i)`: starting at
iteration index `i` with `k` iterations remaining, emit the child calls in
execution order. -/
def applyGo (ivs ovs ri ii ro io : Int) (i : Nat) : Nat → List dftcall
  | 0 => []
  | Nat.succ k =>
      { ri := ri + i * ivs, ii := ii + i * ivs
        ro := ro + i * ovs, io := io + i * ovs } ::
      applyGo ivs ovs ri ii ro io (i + 1) k

/-- `apply`: executing the loop plan on the four base addresses yields the
trace of child invocations, in execution order. -/
def apply {α : Type} (ego : P α) (ri ii ro io : Int) : List dftcall :=
  applyGo ego.ivs ego.ovs ri ii ro io 0 ego.vl

/-! ## Lemmas about the execute loop -/

theorem applyGo_length (ivs ovs ri ii ro io : Int) (i k : Nat) :
    (applyGo ivs ovs ri ii ro io i k).length = k := by
  induction k generalizing i with
  | zero => rfl
  | succ k ih => simp [applyGo, ih]

theorem applyGo_getD (ivs ovs ri ii ro io : Int) (k : Nat) :
    ∀ i j : Nat, j < k →
      (applyGo ivs ovs ri ii ro io i k).getD j default =
        { ri := ri + (i + j : Nat) * ivs, ii := ii + (i + j : Nat) * ivs
          ro := ro + (i + j : Nat) * ovs, io := io + (i + j : Nat) * ovs } := by
  induction k with
  | zero => intro i j hj; exact absurd hj (Nat.not_lt_zero j)
  | succ k ih =>
      intro i j hj
      cases j with
      | zero => simp [applyGo]
      | succ j =>
          have hj2 : j < k := Nat.lt_of_succ_lt_succ hj
          have := ih (i + 1) j hj2
          simp only [applyGo, List.getD_cons_succ]
          rw [this]
          have harith : i + 1 + j = i + (j + 1) := by omega
          rw [harith]

/-- C1: executing a loop plan with `vl = N`, `ivs = si`, `ovs = so` invokes
the child exactly `N` times; the trace is in execution order, so the call
at trace position `i` is the `i`-th invocation (strictly ascending `i`),
and it receives the four base addresses advanced by `i*si` for the two
input channels and `i*so` for the two output channels. -/
theorem C1_loop_execution {α : Type} (pln : P α) (ri ii ro io : Int) :
    (apply pln ri ii ro io).length = pln.vl ∧
    ∀ i : Nat, i < pln.vl →
      (apply pln ri ii ro io).getD i default =
        { ri := ri + i * pln.ivs, ii := ii + i * pln.ivs
          ro := ro + i * pln.ovs, io := io + i * pln.ovs } := by
  constructor
  · exact applyGo_length pln.ivs pln.ovs ri ii ro io 0 pln.vl
  · intro i hi
    have := applyGo_getD pln.ivs pln.ovs ri ii ro io pln.vl 0 i hi
    simpa [apply] using this

/-- Witness for C1: a concrete loop plan with 3 iterations, input stride 5
and output stride 7; iteration 2 sees the bases advanced by 10 and 14. -/
theorem C1_loop_execution_witness :
    (apply (⟨(), 3, 5, 7⟩ : P Unit) 100 200 300 400).length = 3 ∧
    (apply (⟨(), 3, 5, 7⟩ : P Unit) 100 200 300 400).getD 2 default =
      { ri := 110, ii := 210, ro := 314, io := 414 } := by
  refine ⟨(C1_loop_execution (⟨(), 3, 5, 7⟩ : P Unit) 100 200 300 400).1, ?_⟩
  have h := (C1_loop_execution (⟨(), 3, 5, 7⟩ : P Unit) 100 200 300 400).2 2 (by decide)
  simpa using h

/-- C2: for an applicable Problem with selected dimension `vdim`, the
reduced sub-problem that `mkplan` hands to the recursive solve has the
vector shape of the original with exactly dimension `vdim` removed and the
remaining order preserved (rank drops by one), a core shape structurally
equal to the original, and the same four buffer addresses; moreover
`mkplan`'s result is determined by the recursive solve's answer on exactly
this reduced problem. -/
theorem C2_rank_reduction {α : Type} (pd : PickDim) (ego : S) (q : problem_dft)
    (vdim : Nat)
    (happ : applicable pd ego (problem.dft q) = some vdim)
    (hwf : q.vecsz.rnk = q.vecsz.dims.length)
    (hv : vdim < q.vecsz.dims.length) :
    (reduced_problem q vdim).vecsz.rnk + 1 = q.vecsz.rnk ∧
    (reduced_problem q vdim).vecsz.dims.length + 1 = q.vecsz.dims.length ∧
    (reduced_problem q vdim).vecsz.dims =
      q.vecsz.dims.take vdim ++ q.vecsz.dims.drop (vdim + 1) ∧
    (reduced_problem q vdim).sz = q.sz ∧
    (reduced_problem q vdim).ri = q.ri ∧ (reduced_problem q vdim).ii = q.ii ∧
    (reduced_problem q vdim).ro = q.ro ∧ (reduced_problem q vdim).io = q.io ∧
    ∀ (al : Int → Nat) (solve : problem → Option α) (plnr : flagsT),
      (mkplan pd al solve ego (problem.dft q) plnr).1 =
        Option.map
          (fun cld =>
            { cld := cld, vl := (q.vecsz.dims.getD vdim default).n
              ivs := (q.vecsz.dims.getD vdim default).is
              ovs := (q.vecsz.dims.getD vdim default).os })
          (solve (problem.dft (reduced_problem q vdim))) := by
  have hrnkpos : q.vecsz.rnk > 0 := by
    by_contra hle
    have h0 : q.vecsz.rnk = 0 := by omega
    simp [applicable, h0] at happ
  refine ⟨?_, ?_, ?_, rfl, rfl, rfl, rfl, rfl, ?_⟩
  · simp only [reduced_problem, tensor_copy_except]
    omega
  · simp only [reduced_problem, tensor_copy_except]
    exact List.length_eraseIdx_add_one hv
  · simp only [reduced_problem, tensor_copy_except]
    exact List.eraseIdx_eq_take_drop_succ q.vecsz.dims vdim
  · intro al solve plnr
    simp only [mkplan, happ]
    cases hsol : solve (problem.dft (reduced_problem q vdim)) <;>
      simp [hsol]

/-- Witness for C2: a concrete two-dimensional vector shape with the
selector picking dimension 0; the reduced problem drops that dimension,
keeps the core shape and the buffers, and a successful recursive solve
yields a loop plan over the dropped dimension. -/
theorem C2_rank_reduction_witness :
    (reduced_problem ⟨⟨1, [⟨2, 1, 1⟩]⟩, ⟨2, [⟨3, 4, 4⟩, ⟨5, 6, 6⟩]⟩, 0, 10, 20, 30⟩ 0).vecsz.rnk + 1 = 2 ∧
    (reduced_problem ⟨⟨1, [⟨2, 1, 1⟩]⟩, ⟨2, [⟨3, 4, 4⟩, ⟨5, 6, 6⟩]⟩, 0, 10, 20, 30⟩ 0).vecsz.dims =
      [⟨5, 6, 6⟩] ∧
    (mkplan (fun _ _ _ _ _ => some 0) (fun _ => 0) (fun _ => some 7)
        ⟨1, [1, -1], 2⟩
        (problem.dft ⟨⟨1, [⟨2, 1, 1⟩]⟩, ⟨2, [⟨3, 4, 4⟩, ⟨5, 6, 6⟩]⟩, 0, 10, 20, 30⟩)
        ⟨false, false, false, false⟩).1 =
      some { cld := (7 : Nat), vl := 3, ivs := 4, ovs := 4 } := by
  have h := C2_rank_reduction (α := Nat) (fun _ _ _ _ _ => some 0) ⟨1, [1, -1], 2⟩
    ⟨⟨1, [⟨2, 1, 1⟩]⟩, ⟨2, [⟨3, 4, 4⟩, ⟨5, 6, 6⟩]⟩, 0, 10, 20, 30⟩ 0
    (by decide) (by decide) (by decide)
  refine ⟨h.1, ?_, ?_⟩
  · have h3 := h.2.2.1
    simpa using h3
  · have h9 := h.2.2.2.2.2.2.2.2 (fun _ => 0) (fun _ => some 7) ⟨false, false, false, false⟩
    simpa using h9

/-- C3: for an applicable Problem with vector rank exactly 1 and
`CLASSIC_VRECURSE` set before `mkplan`, both `CLASSIC_VRECURSE` and
`FORCE_VRECURSE` are cleared in the planner flags after `mkplan` runs,
whether or not the recursive solve (and hence `mkplan`) succeeds. -/
theorem C3_flag_consumption {α : Type} (pd : PickDim) (al : Int → Nat)
    (solve : problem → Option α) (ego : S) (q : problem_dft) (plnr : flagsT)
    (vdim : Nat)
    (happ : applicable pd ego (problem.dft q) = some vdim)
    (hrnk : q.vecsz.rnk = 1)
    (hcv : plnr.classic_vrecurse = true) :
    ((mkplan pd al solve ego (problem.dft q) plnr).2).classic_vrecurse = false ∧
    ((mkplan pd al solve ego (problem.dft q) plnr).2).force_vrecurse = false := by
  simp only [mkplan, happ, hrnk, hcv, and_true, true_and, if_true]
  cases hsol : solve (problem.dft (reduced_problem q vdim)) <;>
    simp only [hsol] <;> split <;> simp

/-- Witness for C3: a rank-1 vector problem with `CLASSIC_VRECURSE` set and
a failing recursive solve; after `mkplan` both recursion flags are clear. -/
theorem C3_flag_consumption_witness :
    ((mkplan (α := Nat) (fun _ _ _ _ _ => some 0) (fun _ => 0) (fun _ => none)
        ⟨1, [1, -1], 2⟩
        (problem.dft ⟨⟨1, [⟨2, 1, 1⟩]⟩, ⟨1, [⟨3, 4, 4⟩]⟩, 0, 10, 20, 30⟩)
        ⟨false, true, true, false⟩).2).classic_vrecurse = false ∧
    ((mkplan (α := Nat) (fun _ _ _ _ _ => some 0) (fun _ => 0) (fun _ => none)
        ⟨1, [1, -1], 2⟩
        (problem.dft ⟨⟨1, [⟨2, 1, 1⟩]⟩, ⟨1, [⟨3, 4, 4⟩]⟩, 0, 10, 20, 30⟩)
        ⟨false, true, true, false⟩).2).force_vrecurse = false :=
  C3_flag_consumption (α := Nat) (fun _ _ _ _ _ => some 0) (fun _ => 0) (fun _ => none)
    ⟨1, [1, -1], 2⟩ ⟨⟨1, [⟨2, 1, 1⟩]⟩, ⟨1, [⟨3, 4, 4⟩]⟩, 0, 10, 20, 30⟩
    ⟨false, true, true, false⟩ 0 (by decide) (by decide) (by decide)

/-- C4: `score` never returns `GOOD` when applicability fails (it returns
`BAD`), and `score` returns `BAD` whenever `IMPATIENT` is set and the
solver's `vecloop_dim` differs from the first entry of its `buddies` list,
regardless of the problem or the other flags. -/
theorem C4_scoring_monotonicity (pd : PickDim) (ego : S) (p : problem)
    (plnr : flagsT) :
    (applicable pd ego p = none → (score pd ego p plnr).1 = tier.BAD) ∧
    (plnr.impatient = true → ego.vecloop_dim ≠ ego.buddies.headI →
      (score pd ego p plnr).1 = tier.BAD) := by
  constructor
  · intro h
    simp [score, h]
  · intro himp hne
    cases happ : applicable pd ego p with
    | none => simp [score, happ]
    | some vdim =>
        cases p with
        | other => simp [score, happ]
        | dft q => simp [score, happ, himp, hne]

/-- Witness for C4: with `IMPATIENT` set, a solver whose preferred
dimension is the second buddy entry scores `BAD` even on a problem where
the selector succeeds. -/
theorem C4_scoring_monotonicity_witness :
    (score (fun _ _ _ _ _ => some 0) ⟨-1, [1, -1], 2⟩
        (problem.dft ⟨⟨1, [⟨2, 1, 1⟩]⟩, ⟨1, [⟨3, 4, 4⟩]⟩, 0, 10, 20, 30⟩)
        ⟨true, false, false, false⟩).1 = tier.BAD :=
  (C4_scoring_monotonicity (fun _ _ _ _ _ => some 0) ⟨-1, [1, -1], 2⟩
    (problem.dft ⟨⟨1, [⟨2, 1, 1⟩]⟩, ⟨1, [⟨3, 4, 4⟩]⟩, 0, 10, 20, 30⟩)
    ⟨true, false, false, false⟩).2 rfl (by decide)

/-- C5: on an applicable Problem where scoring rules 1–3 do not fire, if
the core shape has rank greater than 1 and the minimum of the selected
dimension's input/output strides is below the core shape's maximum flat
index, `score` returns `UGLY`. -/
theorem C5_stride_heuristic (pd : PickDim) (ego : S) (q : problem_dft)
    (plnr : flagsT) (vdim : Nat)
    (happ : applicable pd ego (problem.dft q) = some vdim)
    (h2 : ¬(plnr.impatient = true ∧ ego.vecloop_dim ≠ ego.buddies.headI))
    (h3 : ¬(plnr.force_vrecurse = true ∧ q.vecsz.rnk = 1))
    (h4 : q.sz.rnk > 1)
    (h5 : imin (q.vecsz.dims.getD vdim default).is (q.vecsz.dims.getD vdim default).os
            < tensor_max_index q.sz) :
    (score pd ego (problem.dft q) plnr).1 = tier.UGLY := by
  simp only [score, happ]
  rw [if_neg, if_neg, if_pos]
  · exact ⟨h4, h5⟩
  · simpa using h3
  · simpa using h2

/-- Witness for C5: the spec's §8 scenario — vector shape
`[(3,100,100), (5,1,1)]` with dimension 1 selected, a rank-2 core shape
spanning maximum flat index 50; `min(1,1) = 1 < 50`, so the tier is
`UGLY`. -/
theorem C5_stride_heuristic_witness :
    (score (fun _ _ _ _ _ => some 1) ⟨1, [1, -1], 2⟩
        (problem.dft ⟨⟨2, [⟨2, 10, 10⟩, ⟨5, 10, 10⟩]⟩,
                      ⟨2, [⟨3, 100, 100⟩, ⟨5, 1, 1⟩]⟩, 0, 10, 20, 30⟩)
        ⟨false, false, false, false⟩).1 = tier.UGLY :=
  C5_stride_heuristic (fun _ _ _ _ _ => some 1) ⟨1, [1, -1], 2⟩
    ⟨⟨2, [⟨2, 10, 10⟩, ⟨5, 10, 10⟩]⟩, ⟨2, [⟨3, 100, 100⟩, ⟨5, 1, 1⟩]⟩, 0, 10, 20, 30⟩
    ⟨false, false, false, false⟩ 1
    (by decide) (by decide) (by decide) (by decide) (by decide)

/-- C6: on an applicable Problem where scoring rules 1–2 do not fire, if
`FORCE_VRECURSE` is set and the vector shape has rank exactly 1, `score`
returns `UGLY`. -/
theorem C6_force_vrecurse_heuristic (pd : PickDim) (ego : S) (q : problem_dft)
    (plnr : flagsT) (vdim : Nat)
    (happ : applicable pd ego (problem.dft q) = some vdim)
    (h2 : ¬(plnr.impatient = true ∧ ego.vecloop_dim ≠ ego.buddies.headI))
    (hf : plnr.force_vrecurse = true)
    (hr : q.vecsz.rnk = 1) :
    (score pd ego (problem.dft q) plnr).1 = tier.UGLY := by
  simp only [score, happ]
  rw [if_neg, if_pos]
  · exact ⟨hf, hr⟩
  · simpa using h2

/-- Witness for C6: a rank-1 vector problem with `FORCE_VRECURSE` set and
the impatience rule not firing scores `UGLY`. -/
theorem C6_force_vrecurse_heuristic_witness :
    (score (fun _ _ _ _ _ => some 0) ⟨1, [1, -1], 2⟩
        (problem.dft ⟨⟨1, [⟨2, 1, 1⟩]⟩, ⟨1, [⟨3, 4, 4⟩]⟩, 0, 10, 20, 30⟩)
        ⟨false, true, false, false⟩).1 = tier.UGLY :=
  C6_force_vrecurse_heuristic (fun _ _ _ _ _ => some 0) ⟨1, [1, -1], 2⟩
    ⟨⟨1, [⟨2, 1, 1⟩]⟩, ⟨1, [⟨3, 4, 4⟩]⟩, 0, 10, 20, 30⟩
    ⟨false, true, false, false⟩ 0 (by decide) (by decide) rfl rfl

/-- C7: during `mkplan` on an applicable Problem, if the selected
dimension has positive length and any of the four buffer addresses offset
by the dimension's strides is misaligned (non-zero alignment), the
`POSSIBLY_UNALIGNED` flag is set; if the length is zero or all four are
aligned, the flag keeps its previous value. -/
theorem C7_alignment_recording {α : Type} (pd : PickDim) (al : Int → Nat)
    (solve : problem → Option α) (ego : S) (q : problem_dft) (plnr : flagsT)
    (vdim : Nat)
    (happ : applicable pd ego (problem.dft q) = some vdim) :
    ((q.vecsz.dims.getD vdim default).n > 0 →
      (al (q.ri + (q.vecsz.dims.getD vdim default).is) ≠ 0 ∨
       al (q.ii + (q.vecsz.dims.getD vdim default).is) ≠ 0 ∨
       al (q.ro + (q.vecsz.dims.getD vdim default).os) ≠ 0 ∨
       al (q.io + (q.vecsz.dims.getD vdim default).os) ≠ 0) →
      ((mkplan pd al solve ego (problem.dft q) plnr).2).possibly_unaligned = true) ∧
    ((q.vecsz.dims.getD vdim default).n = 0 ∨
      (al (q.ri + (q.vecsz.dims.getD vdim default).is) = 0 ∧
       al (q.ii + (q.vecsz.dims.getD vdim default).is) = 0 ∧
       al (q.ro + (q.vecsz.dims.getD vdim default).os) = 0 ∧
       al (q.io + (q.vecsz.dims.getD vdim default).os) = 0) →
      ((mkplan pd al solve ego (problem.dft q) plnr).2).possibly_unaligned =
        plnr.possibly_unaligned) := by
  constructor
  · intro hn hmis
    simp only [mkplan, happ]
    cases hsol : solve (problem.dft (reduced_problem q vdim)) <;>
      simp only [hsol] <;> rw [if_pos (by exact ⟨hn, by simpa using hmis⟩)]
  · intro hal
    simp only [mkplan, happ]
    have hneg : ¬((q.vecsz.dims.getD vdim default).n > 0 ∧
        (al (q.ri + (q.vecsz.dims.getD vdim default).is) ≠ 0 ∨
         al (q.ii + (q.vecsz.dims.getD vdim default).is) ≠ 0 ∨
         al (q.ro + (q.vecsz.dims.getD vdim default).os) ≠ 0 ∨
         al (q.io + (q.vecsz.dims.getD vdim default).os) ≠ 0)) := by
      rcases hal with h0 | ⟨h1, h2, h3, h4⟩
      · rintro ⟨hn, -⟩; omega
      · rintro ⟨-, hm⟩
        rcases hm with h | h | h | h <;> [exact h h1; exact h h2; exact h h3; exact h h4]
    cases hsol : solve (problem.dft (reduced_problem q vdim)) <;>
      simp only [hsol] <;> rw [if_neg (by simpa using hneg)] <;>
      split <;> rfl

/-- Witness for C7: a problem whose input-real address plus stride is odd
under a parity alignment probe triggers `POSSIBLY_UNALIGNED`. -/
theorem C7_alignment_recording_witness :
    ((mkplan (α := Nat) (fun _ _ _ _ _ => some 0) (fun a => (a % 2).toNat)
        (fun _ => none) ⟨1, [1, -1], 2⟩
        (problem.dft ⟨⟨1, [⟨2, 1, 1⟩]⟩, ⟨1, [⟨3, 4, 4⟩]⟩, 1, 10, 20, 30⟩)
        ⟨false, false, false, false⟩).2).possibly_unaligned = true :=
  (C7_alignment_recording (α := Nat) (fun _ _ _ _ _ => some 0)
    (fun a => (a % 2).toNat) (fun _ => none) ⟨1, [1, -1], 2⟩
    ⟨⟨1, [⟨2, 1, 1⟩]⟩, ⟨1, [⟨3, 4, 4⟩]⟩, 1, 10, 20, 30⟩
    ⟨false, false, false, false⟩ 0 (by decide)).1 (by decide) (by decide)

/-- C8: `mkplan` returns no plan exactly when applicability fails or the
recursive solve on the reduced sub-problem returns no plan; in every other
case it returns a loop plan wrapping the child plan returned by the
recursive solve, with the selected dimension's length and strides. -/
theorem C8_no_plan_conditions {α : Type} (pd : PickDim) (al : Int → Nat)
    (solve : problem → Option α) (ego : S) (p : problem) (plnr : flagsT) :
    ((mkplan pd al solve ego p plnr).1 = none ↔
      applicable pd ego p = none ∨
      ∃ q vdim, p = problem.dft q ∧ applicable pd ego p = some vdim ∧
        solve (problem.dft (reduced_problem q vdim)) = none) ∧
    (∀ (q : problem_dft) (vdim : Nat) (cld : α), p = problem.dft q →
      applicable pd ego p = some vdim →
      solve (problem.dft (reduced_problem q vdim)) = some cld →
      (mkplan pd al solve ego p plnr).1 =
        some { cld := cld, vl := (q.vecsz.dims.getD vdim default).n
               ivs := (q.vecsz.dims.getD vdim default).is
               ovs := (q.vecsz.dims.getD vdim default).os }) := by
  constructor
  · cases p with
    | other =>
        constructor
        · intro _; exact Or.inl rfl
        · intro _; rfl
    | dft q =>
        cases happ : applicable pd ego (problem.dft q) with
        | none =>
            constructor
            · intro _; exact Or.inl rfl
            · intro _; simp [mkplan, happ]
        | some vdim =>
            cases hsol : solve (problem.dft (reduced_problem q vdim)) with
            | none =>
                constructor
                · intro _; exact Or.inr ⟨q, vdim, rfl, rfl, hsol⟩
                · intro _; simp [mkplan, happ, hsol]
            | some cld =>
                constructor
                · intro h
                  rw [show (mkplan pd al solve ego (problem.dft q) plnr).1 =
                        some { cld := cld, vl := (q.vecsz.dims.getD vdim default).n
                               ivs := (q.vecsz.dims.getD vdim default).is
                               ovs := (q.vecsz.dims.getD vdim default).os } by
                        simp [mkplan, happ, hsol]] at h
                  exact absurd h (by simp)
                · rintro (h | ⟨q2, vdim2, heq, happ2, hsol2⟩)
                  · exact absurd h (by simp)
                  · injection heq with hq
                    subst hq
                    injection happ2 with hv
                    subst hv
                    rw [hsol] at hsol2
                    exact absurd hsol2 (by simp)
  · intro q vdim cld heq happ hsol
    subst heq
    simp [mkplan, happ, hsol]

/-- Witness for C8: with a successful recursive solve, `mkplan` wraps the
returned child plan with the selected dimension's length and strides. -/
theorem C8_no_plan_conditions_witness :
    (mkplan (fun _ _ _ _ _ => some 0) (fun _ => 0) (fun _ => some 42)
        ⟨1, [1, -1], 2⟩
        (problem.dft ⟨⟨1, [⟨2, 1, 1⟩]⟩, ⟨1, [⟨3, 4, -4⟩]⟩, 0, 10, 20, 30⟩)
        ⟨false, false, false, false⟩).1 =
      some { cld := (42 : Nat), vl := 3, ivs := 4, ovs := -4 } :=
  (C8_no_plan_conditions (α := Nat) (fun _ _ _ _ _ => some 0) (fun _ => 0)
    (fun _ => some 42) ⟨1, [1, -1], 2⟩
    (problem.dft ⟨⟨1, [⟨2, 1, 1⟩]⟩, ⟨1, [⟨3, 4, -4⟩]⟩, 0, 10, 20, 30⟩)
    ⟨false, false, false, false⟩).2
    ⟨⟨1, [⟨2, 1, 1⟩]⟩, ⟨1, [⟨3, 4, -4⟩]⟩, 0, 10, 20, 30⟩ 0 42
    rfl (by decide) rfl

/-- C9: on a non-DFT problem, `applicable` fails without consulting the
dimension selector (the result is the same for every selector), `score`
returns `BAD`, and `mkplan` returns no plan. -/
theorem C9_non_dft_problems {α : Type} (pd pd2 : PickDim) (al : Int → Nat)
    (solve : problem → Option α) (ego : S) (plnr : flagsT) :
    applicable pd ego problem.other = none ∧
    applicable pd ego problem.other = applicable pd2 ego problem.other ∧
    (score pd ego problem.other plnr).1 = tier.BAD ∧
    (mkplan pd al solve ego problem.other plnr).1 = none :=
  ⟨rfl, rfl, rfl, rfl⟩

/-- C10: `score` never writes the planner flags: the flag state it returns
is exactly the flag state it was given, for every problem, solver and
initial flag state. -/
theorem C10_score_readonly (pd : PickDim) (ego : S) (p : problem)
    (plnr : flagsT) :
    (score pd ego p plnr).2 = plnr := by
  cases p with
  | other =>
      cases happ : applicable pd ego problem.other with
      | none => simp [score, happ]
      | some vdim => exact absurd happ (by simp [applicable])
  | dft q =>
      cases happ : applicable pd ego (problem.dft q) with
      | none => simp [score, happ]
      | some vdim =>
          simp only [score, happ]
          split_ifs <;> rfl

end VrankGeq1
